import Mathlib

/-!
Verification of the JARVIS voice-assistant front end.

This file gives a shallow embedding of the portable logic of the
repository: the audio playback queue worker of `App` (both versions of
the component share this logic), the interruption handling effect,
`categorizeError`, `handleScroll`, the tool-call dispatch inside
`JarvisService.connectLive`, the `onmessage` live-session handler,
`JarvisService.sendMessage`, and the tool callback passed by the first
`App` version to `connectLive`.  Browser effects (DOM, `window.open`,
timers, Web Audio nodes) are modelled as explicit state and event
records; JavaScript strings are modelled by `String` with character-list
implementations of the JS string operations used by the code.
-/

/-! ## JavaScript string operations (ASCII-faithful models) -/

/-- ASCII lowercasing of one character, as used by `String.toLowerCase`
on the ASCII fragment relevant to `categorizeError`'s patterns. -/
def charLower (c : Char) : Char :=
  if 65 ≤ c.toNat ∧ c.toNat ≤ 90 then Char.ofNat (c.toNat + 32) else c

/-- ASCII uppercasing of one character (model of `toUpperCase`). -/
def charUpper (c : Char) : Char :=
  if 97 ≤ c.toNat ∧ c.toNat ≤ 122 then Char.ofNat (c.toNat - 32) else c

/-- Model of JavaScript `s.toLowerCase()`. -/
def jsToLower (s : String) : String := ⟨s.data.map charLower⟩

/-- Model of JavaScript `s.toUpperCase()`. -/
def jsToUpper (s : String) : String := ⟨s.data.map charUpper⟩

/-- Does `pat` occur as a contiguous sublist of `l`? -/
def occursInAux (pat : List Char) : List Char → Bool
  | [] => pat.isEmpty
  | c :: rest => List.isPrefixOf pat (c :: rest) || occursInAux pat rest

/-- Model of JavaScript `s.includes(pat)`. -/
def jsIncludes (s pat : String) : Bool := occursInAux pat.data s.data

/-- Model of JavaScript `s.trim()`: strip whitespace from both ends. -/
def jsTrim (s : String) : String :=
  ⟨((s.data.dropWhile Char.isWhitespace).reverse.dropWhile Char.isWhitespace).reverse⟩

/-- Hexadecimal digit (uppercase) for a value below 16. -/
def hexDigit (n : Nat) : Char :=
  if n < 10 then Char.ofNat (48 + n) else Char.ofNat (55 + n)

/-- UTF-8 byte sequence of one character. -/
def utf8Bytes (c : Char) : List Nat :=
  let n := c.toNat
  if n < 128 then [n]
  else if n < 2048 then [192 + n / 64, 128 + n % 64]
  else if n < 65536 then [224 + n / 4096, 128 + (n / 64) % 64, 128 + n % 64]
  else [240 + n / 262144, 128 + (n / 4096) % 64, 128 + (n / 64) % 64, 128 + n % 64]

/-- Characters left unescaped by JavaScript `encodeURIComponent`:
ASCII alphanumerics and `- _ . ! ~ * ' ( )` (the quote written by code). -/
def isURIUnescaped (c : Char) : Bool :=
  (65 ≤ c.toNat && c.toNat ≤ 90) || (97 ≤ c.toNat && c.toNat ≤ 122) ||
  (48 ≤ c.toNat && c.toNat ≤ 57) ||
  c == '-' || c == '_' || c == '.' || c == '!' || c == '~' || c == '*' ||
  c.toNat == 39 || c == '(' || c == ')'

/-- Percent-escape of a single byte. -/
def percentEncodeByte (b : Nat) : List Char :=
  ['%', hexDigit (b / 16), hexDigit (b % 16)]

/-- Model of JavaScript `encodeURIComponent`. -/
def encodeURIComponent (s : String) : String :=
  ⟨s.data.flatMap (fun c =>
    if isURIUnescaped c then [c] else (utf8Bytes c).flatMap percentEncodeByte)⟩

lemma append_ne_empty_of_left (s t : String) (h : s.data ≠ []) : s ++ t ≠ "" := by
  intro hc
  apply h
  have hd := congrArg String.data hc
  rw [String.data_append] at hd
  exact (List.append_eq_nil.mp hd).1

/-! ## Voice status enumeration (`VoiceStatus` in jarvisService.ts) -/

/-- The `VoiceStatus` union type of `jarvisService.ts`. -/
inductive VoiceStatus
  | listening
  | processing
  | speaking
  | idle
deriving DecidableEq, Repr

/-! ## Audio playback subsystem of `App`

State of the playback subsystem: React state `audioQueue` and
`isPlayingAudio`, the ref `currentAudioSourceRef`, and ghost fields
tracking every `AudioBufferSourceNode` that has been started and not yet
stopped or ended (`activeSources`), a counter for fresh source nodes,
and the history of arrived and started buffers.  Buffers are identified
by `Nat` ids. -/

structure PbState where
  audioQueue : List Nat
  isPlayingAudio : Bool
  currentRef : Option Nat
  activeSources : List Nat
  nextSrc : Nat
  arrivals : List Nat
  played : List Nat
deriving DecidableEq, Repr

/-- Initial playback state (all React state empty). -/
def pbInit : PbState := ⟨[], false, none, [], 0, [], []⟩

/-- `stopAudioPlayback` of `App`: clear the queue, reset the playing
flag, stop the current source node (detaching its `onended` handler)
and null `currentAudioSourceRef`. -/
def stopAudioPlayback (s : PbState) : PbState :=
  { s with audioQueue := []
           isPlayingAudio := false
           currentRef := none
           activeSources :=
             (match s.currentRef with
              | some a => s.activeSources.erase a
              | none => s.activeSources) }

/-- The interruption-handling effect of `App`: when `voiceStatus`
becomes `listening` or `processing`, run `stopAudioPlayback`. -/
def interruptionEffect (status : VoiceStatus) (s : PbState) : PbState :=
  if status = VoiceStatus.listening ∨ status = VoiceStatus.processing then
    stopAudioPlayback s
  else s

/-- Events of the playback subsystem. -/
inductive PbEv
  | arrive (b : Nat)
  | workerPlay
  | ended (src : Nat)
  | interrupt
deriving DecidableEq, Repr

/-- One step of the playback subsystem.

* `arrive b`: the `onAudioData` callback appends a decoded buffer at the
  back of `audioQueue` (`setAudioQueue(prev => [...prev, audioBuffer])`).
* `workerPlay`: the queue-worker effect fires when `audioQueue` is
  non-empty and `isPlayingAudio` is false; `playNextAudio` sets
  `isPlayingAudio` to true, creates a fresh source node for the head
  buffer, stores it in `currentAudioSourceRef` and starts it.
* `ended src`: the `onended` handler of the current source fires: the
  ref is nulled, the head of the queue is dropped (`slice(1)`) and
  `isPlayingAudio` is reset.  It can only fire for the node still held
  in `currentAudioSourceRef`, since `stopAudioPlayback` detaches the
  handler before stopping a node.
* `interrupt`: `stopAudioPlayback` runs. -/
inductive PbStep : PbState → PbEv → PbState → Prop
  | arrive (s : PbState) (b : Nat) :
      PbStep s (PbEv.arrive b)
        { s with audioQueue := s.audioQueue ++ [b]
                 arrivals := s.arrivals ++ [b] }
  | workerPlay (s : PbState) (b : Nat) (q : List Nat)
      (hq : s.audioQueue = b :: q) (hp : s.isPlayingAudio = false) :
      PbStep s PbEv.workerPlay
        { s with isPlayingAudio := true
                 currentRef := some s.nextSrc
                 activeSources := s.activeSources ++ [s.nextSrc]
                 nextSrc := s.nextSrc + 1
                 played := s.played ++ [b] }
  | ended (s : PbState) (src : Nat) (h : s.currentRef = some src) :
      PbStep s (PbEv.ended src)
        { s with currentRef := none
                 audioQueue := s.audioQueue.drop 1
                 isPlayingAudio := false
                 activeSources := s.activeSources.erase src }
  | interrupt (s : PbState) :
      PbStep s PbEv.interrupt (stopAudioPlayback s)

/-- Reachable states of the playback subsystem. -/
inductive PbReach : PbState → Prop
  | init : PbReach pbInit
  | step {s s' : PbState} {e : PbEv} : PbReach s → PbStep s e s' → PbReach s'

/-- States reachable without any interruption. -/
inductive PbReachNI : PbState → Prop
  | init : PbReachNI pbInit
  | step {s s' : PbState} {e : PbEv} :
      PbReachNI s → e ≠ PbEv.interrupt → PbStep s e s' → PbReachNI s'

/-- Core playback invariant: the currently-referenced source is the only
active one, and when it exists the playing flag is set; with no current
source there is no active node at all. -/
def PbInv (s : PbState) : Prop :=
  (∀ a, s.currentRef = some a → s.activeSources = [a] ∧ s.isPlayingAudio = true) ∧
  (s.currentRef = none → s.activeSources = [])

lemma pbInv_init : PbInv pbInit := by
  constructor
  · intro a h
    simp [pbInit] at h
  · intro _
    rfl

lemma pbInv_step {s s' : PbState} {e : PbEv}
    (hI : PbInv s) (h : PbStep s e s') : PbInv s' := by
  cases h with
  | arrive b =>
      obtain ⟨h1, h2⟩ := hI
      exact ⟨fun a ha => h1 a ha, fun ha => h2 ha⟩
  | workerPlay b q hq hp =>
      obtain ⟨h1, h2⟩ := hI
      have hnone : s.currentRef = none := by
        cases hr : s.currentRef with
        | none => rfl
        | some a =>
            have := (h1 a hr).2
            rw [hp] at this
            exact absurd this (by simp)
      constructor
      · intro a ha
        simp only at ha
        have hA := h2 hnone
        simp [hA]
        exact Option.some.inj ha
      · intro ha
        simp at ha
  | ended src hr =>
      obtain ⟨h1, h2⟩ := hI
      have hA : s.activeSources = [src] := (h1 src hr).1
      constructor
      · intro a ha
        simp at ha
      · intro _
        simp [hA, List.erase_cons_head]
  | interrupt =>
      obtain ⟨h1, h2⟩ := hI
      constructor
      · intro a ha
        simp [stopAudioPlayback] at ha
      · intro _
        simp only [stopAudioPlayback]
        cases hr : s.currentRef with
        | none => exact h2 hr
        | some a =>
            have hA : s.activeSources = [a] := (h1 a hr).1
            simp [hA, List.erase_cons_head]

lemma pbInv_reach {s : PbState} (h : PbReach s) : PbInv s := by
  induction h with
  | init => exact pbInv_init
  | step _ hstep ih => exact pbInv_step ih hstep

lemma pbReach_of_reachNI {s : PbState} (h : PbReachNI s) : PbReach s := by
  induction h with
  | init => exact PbReach.init
  | step _ _ hstep ih => exact PbReach.step ih hstep

/-- Claim C1: at most one audio buffer plays at a time.  The playback
worker starts a new buffer only when `isPlayingAudio` is false, and
`playNextAudio` sets `isPlayingAudio` to true before starting the
source, so every reachable state of the playback subsystem has at most
one active `AudioBufferSourceNode`. -/
theorem playback_at_most_one_active_source (s : PbState) (h : PbReach s) :
    s.activeSources.length ≤ 1 := by
  have hI := pbInv_reach h
  cases hr : s.currentRef with
  | some a =>
      rw [(hI.1 a hr).1]
      simp
  | none =>
      rw [hI.2 hr]
      simp

theorem playback_at_most_one_active_source_witness :
    PbReach (PbState.mk [7] true (some 0) [0] 1 [7] [7]) ∧
    (PbState.mk [7] true (some 0) [0] 1 [7] [7]).activeSources.length ≤ 1 := by
  have h0 : PbReach pbInit := PbReach.init
  have h1 : PbReach (PbState.mk [7] false none [] 0 [7] []) :=
    PbReach.step h0 (PbStep.arrive pbInit 7)
  have h2 : PbReach (PbState.mk [7] true (some 0) [0] 1 [7] [7]) :=
    PbReach.step h1 (PbStep.workerPlay _ 7 [] rfl rfl)
  exact ⟨h2, playback_at_most_one_active_source _ h2⟩

/-- Claim C2: the queue is cleared on interruption.  When the voice
status transitions to `listening` or `processing` the interruption
effect runs `stopAudioPlayback`, and afterwards the audio queue is
empty, `isPlayingAudio` is false, the previously playing source node
(if any) has been stopped (no node remains active), and
`currentAudioSourceRef` is null. -/
theorem interruption_clears_queue (s : PbState) (status : VoiceStatus)
    (hreach : PbReach s)
    (hstatus : status = VoiceStatus.listening ∨ status = VoiceStatus.processing) :
    interruptionEffect status s = stopAudioPlayback s ∧
    (interruptionEffect status s).audioQueue = [] ∧
    (interruptionEffect status s).isPlayingAudio = false ∧
    (interruptionEffect status s).currentRef = none ∧
    (interruptionEffect status s).activeSources = [] := by
  have heq : interruptionEffect status s = stopAudioPlayback s := by
    unfold interruptionEffect
    rw [if_pos hstatus]
  refine ⟨heq, ?_, ?_, ?_, ?_⟩ <;> rw [heq]
  · rfl
  · rfl
  · rfl
  · have hI := pbInv_reach hreach
    simp only [stopAudioPlayback]
    cases hr : s.currentRef with
    | none => exact hI.2 hr
    | some a =>
        rw [(hI.1 a hr).1]
        simp [List.erase_cons_head]

theorem interruption_clears_queue_witness :
    (interruptionEffect VoiceStatus.listening
      (PbState.mk [7] true (some 0) [0] 1 [7] [7])).audioQueue = [] ∧
    (interruptionEffect VoiceStatus.listening
      (PbState.mk [7] true (some 0) [0] 1 [7] [7])).activeSources = [] := by
  have h0 : PbReach pbInit := PbReach.init
  have h1 : PbReach (PbState.mk [7] false none [] 0 [7] []) :=
    PbReach.step h0 (PbStep.arrive pbInit 7)
  have h2 : PbReach (PbState.mk [7] true (some 0) [0] 1 [7] [7]) :=
    PbReach.step h1 (PbStep.workerPlay _ 7 [] rfl rfl)
  have h := interruption_clears_queue _ VoiceStatus.listening h2 (Or.inl rfl)
  exact ⟨h.2.1, h.2.2.2.2⟩

/-- FIFO bookkeeping invariant for interruption-free runs: while a
buffer is playing it is both the head of the queue and the most
recently started buffer, and the arrival history always splits into the
fully consumed prefix followed by the pending queue. -/
def FifoInv (s : PbState) : Prop :=
  (s.isPlayingAudio = true →
     s.played ≠ [] ∧ s.audioQueue ≠ [] ∧
     s.audioQueue.head? = s.played.getLast? ∧
     s.arrivals = s.played.dropLast ++ s.audioQueue) ∧
  (s.isPlayingAudio = false → s.arrivals = s.played ++ s.audioQueue)

lemma fifoInv_init : FifoInv pbInit := by
  constructor
  · intro h
    simp [pbInit] at h
  · intro _
    rfl

lemma fifoInv_step {s s' : PbState} {e : PbEv}
    (hI : PbInv s) (hF : FifoInv s) (hne : e ≠ PbEv.interrupt)
    (h : PbStep s e s') : FifoInv s' := by
  cases h with
  | arrive b =>
      obtain ⟨hp, hn⟩ := hF
      constructor
      · intro hplay
        simp only at hplay ⊢
        obtain ⟨h1, h2, h3, h4⟩ := hp hplay
        refine ⟨h1, by simp, ?_, ?_⟩
        · cases hq : s.audioQueue with
          | nil => exact absurd hq h2
          | cons x xs => simp [hq] at h3 ⊢; exact h3
        · rw [h4]
          simp
      · intro hplay
        simp only at hplay ⊢
        rw [hn hplay]
        simp
  | workerPlay b q hq hp =>
      obtain ⟨_, hn⟩ := hF
      have harr : s.arrivals = s.played ++ s.audioQueue := hn hp
      constructor
      · intro _
        simp only
        refine ⟨by simp, ?_, ?_, ?_⟩
        · rw [hq]; simp
        · rw [hq]
          simp [List.getLast?_concat]
        · rw [harr, List.dropLast_concat]
      · intro hfalse
        simp at hfalse
  | ended src hr =>
      obtain ⟨hp, _⟩ := hF
      have hplay : s.isPlayingAudio = true := (hI.1 src hr).2
      obtain ⟨h1, h2, h3, h4⟩ := hp hplay
      constructor
      · intro hfalse
        simp at hfalse
      · intro _
        simp only
        cases hq : s.audioQueue with
        | nil => exact absurd hq h2
        | cons x xs =>
            have hx : s.played.getLast? = some x := by
              rw [← h3, hq]; rfl
            have hsplit : s.played.dropLast ++ [x] = s.played := by
              have hlast : s.played.getLast? = some (s.played.getLast h1) :=
                List.getLast?_eq_getLast s.played h1
              have : s.played.getLast h1 = x := by
                rw [hlast] at hx
                exact Option.some.inj hx
              rw [← this]
              exact List.dropLast_append_getLast h1
            rw [h4, hq]
            simp only [List.drop_succ_cons, List.drop_zero]
            rw [← hsplit]
            simp
  | interrupt =>
      exact absurd rfl hne

lemma fifoInv_reachNI {s : PbState} (h : PbReachNI s) : FifoInv s := by
  induction h with
  | init => exact fifoInv_init
  | step hr hne hstep ih =>
      exact fifoInv_step (pbInv_reach (pbReach_of_reachNI hr)) ih hne hstep

/-- Claim C3: the pending-audio queue is FIFO.  Buffers are appended at
the back of `audioQueue` on arrival and consumed from the front, so in
every interruption-free run the sequence of started buffers is a prefix
of the arrival sequence: buffers play exactly in arrival order. -/
theorem playback_fifo_order (s : PbState) (h : PbReachNI s) :
    ∃ pending, s.arrivals = s.played ++ pending := by
  have hF := fifoInv_reachNI h
  cases hplay : s.isPlayingAudio with
  | false => exact ⟨s.audioQueue, hF.2 hplay⟩
  | true =>
      obtain ⟨h1, h2, h3, h4⟩ := hF.1 hplay
      cases hq : s.audioQueue with
      | nil => exact absurd hq h2
      | cons x xs =>
          have hx : s.played.getLast? = some x := by
            rw [← h3, hq]; rfl
          have hlast : s.played.getLast? = some (s.played.getLast h1) :=
            List.getLast?_eq_getLast s.played h1
          have hxl : s.played.getLast h1 = x := by
            rw [hlast] at hx
            exact Option.some.inj hx
          refine ⟨xs, ?_⟩
          rw [h4, hq, ← List.dropLast_append_getLast h1, hxl]
          simp

theorem playback_fifo_order_witness :
    PbReachNI (PbState.mk [] false none [] 1 [7] [7]) ∧
    ∃ pending, ([7] : List Nat) = [7] ++ pending := by
  have h0 : PbReachNI pbInit := PbReachNI.init
  have h1 : PbReachNI (PbState.mk [7] false none [] 0 [7] []) :=
    PbReachNI.step h0 (by simp) (PbStep.arrive pbInit 7)
  have h2 : PbReachNI (PbState.mk [7] true (some 0) [0] 1 [7] [7]) :=
    PbReachNI.step h1 (by simp) (PbStep.workerPlay _ 7 [] rfl rfl)
  have h3 : PbReachNI (PbState.mk [] false none [] 1 [7] [7]) :=
    PbReachNI.step h2 (by simp) (PbStep.ended _ 0 rfl)
  exact ⟨h3, playback_fifo_order _ h3⟩

/-! ## `categorizeError` of `App` (first version) -/

/-- A JavaScript error value as consumed by `categorizeError`: its
`name`, its `message` (the empty string models an absent message) and
its `toString()` rendering. -/
structure JsError where
  name : String
  message : String
  toStringRepr : String
deriving DecidableEq, Repr

/-- `(error.message || error.toString()).toLowerCase()`. -/
def effectiveMsg (e : JsError) : String :=
  jsToLower (if e.message = "" then e.toStringRepr else e.message)

/-- The (condition, display string) pairs of `categorizeError`'s
if/else chain, in source order: the first pair whose condition holds
determines the result, exactly as the chain of early returns does. -/
def errorCategoryChain (online : Bool) (e : JsError) : List (Bool × String) :=
  [(e.name == "AbortError" || jsIncludes (effectiveMsg e) "aborted",
    "SESSION ENDED: USER TERMINATED UPLINK."),
   (!online,
    "OFFLINE: DATA UPLINK SEVERED. CHECK NETWORK CONFIGURATION."),
   (jsIncludes (effectiveMsg e) "network" ||
      jsIncludes (effectiveMsg e) "failed to fetch" ||
      jsIncludes (effectiveMsg e) "connection" ||
      jsIncludes (effectiveMsg e) "offline",
    "CONNECTION FAILURE: UNABLE TO CONTACT REMOTE SERVER."),
   (jsIncludes (effectiveMsg e) "503" ||
      jsIncludes (effectiveMsg e) "unavailable" ||
      jsIncludes (effectiveMsg e) "overloaded",
    "SERVER OVERLOAD: NEURAL ENGINE AT CAPACITY. PLEASE RETRY."),
   (jsIncludes (effectiveMsg e) "429" || jsIncludes (effectiveMsg e) "quota",
    "RATE LIMIT EXCEEDED: COOLING DOWN SYSTEMS."),
   (e.name == "NotAllowedError" || e.name == "PermissionDeniedError" ||
      jsIncludes (effectiveMsg e) "permission denied",
    "SECURITY ALERT: AUDIO INPUT ACCESS DENIED. PLEASE GRANT PERMISSION."),
   (e.name == "NotFoundError" || jsIncludes (effectiveMsg e) "device not found",
    "HARDWARE MISSING: NO MICROPHONE DETECTED."),
   (e.name == "NotReadableError" || jsIncludes (effectiveMsg e) "concurrent" ||
      jsIncludes (effectiveMsg e) "busy",
    "HARDWARE CONFLICT: MICROPHONE IN USE BY ANOTHER PROCESS."),
   (e.name == "NotSupportedError" || jsIncludes (effectiveMsg e) "not supported",
    "COMPATIBILITY ERROR: BROWSER DOES NOT SUPPORT REQUIRED AUDIO FEATURES."),
   (jsIncludes (effectiveMsg e) "api key" || jsIncludes (effectiveMsg e) "auth",
    "AUTHENTICATION FAILED: INVALID SECURITY CREDENTIALS.")]

/-- `categorizeError` of the first `App` version: map an error value to
one of the fixed HUD display strings by matching its name and lowercased
message against the chain above (first hit wins), with the generic
`SYSTEM ERROR` string as the total fallback; `online` models
`navigator.onLine`. -/
def categorizeError (online : Bool) (e : JsError) : String :=
  match (errorCategoryChain online e).find? (fun p => p.fst) with
  | some p => p.snd
  | none =>
      "SYSTEM ERROR: " ++
        (if e.message = "" then "UNKNOWN FATAL EXCEPTION" else jsToUpper e.message)

/-- The fixed display strings of `categorizeError` (all but the generic
`SYSTEM ERROR` fallback). -/
def fixedErrorMessages : List String :=
  ["SESSION ENDED: USER TERMINATED UPLINK.",
   "OFFLINE: DATA UPLINK SEVERED. CHECK NETWORK CONFIGURATION.",
   "CONNECTION FAILURE: UNABLE TO CONTACT REMOTE SERVER.",
   "SERVER OVERLOAD: NEURAL ENGINE AT CAPACITY. PLEASE RETRY.",
   "RATE LIMIT EXCEEDED: COOLING DOWN SYSTEMS.",
   "SECURITY ALERT: AUDIO INPUT ACCESS DENIED. PLEASE GRANT PERMISSION.",
   "HARDWARE MISSING: NO MICROPHONE DETECTED.",
   "HARDWARE CONFLICT: MICROPHONE IN USE BY ANOTHER PROCESS.",
   "COMPATIBILITY ERROR: BROWSER DOES NOT SUPPORT REQUIRED AUDIO FEATURES.",
   "AUTHENTICATION FAILED: INVALID SECURITY CREDENTIALS."]

/-- Claim C6: failure recovery is string-matching an error message into
a display category.  For every error value and online flag,
`categorizeError` returns one of the fixed display strings or the
generic `SYSTEM ERROR: ...` fallback, and it never returns the empty
string (being a total function, it never throws). -/
theorem categorizeError_total_and_fixed (online : Bool) (e : JsError) :
    categorizeError online e ≠ "" ∧
    (categorizeError online e ∈ fixedErrorMessages ∨
      ∃ rest, categorizeError online e = "SYSTEM ERROR: " ++ rest) := by
  unfold categorizeError
  cases hf : (errorCategoryChain online e).find? (fun p => p.fst) with
  | none =>
      exact ⟨append_ne_empty_of_left _ _ (by simp), Or.inr ⟨_, rfl⟩⟩
  | some p =>
      have hp : p ∈ errorCategoryChain online e := List.mem_of_find?_eq_some hf
      have hmem : p.snd ∈ fixedErrorMessages := by
        have hm : p.snd ∈ (errorCategoryChain online e).map Prod.snd :=
          List.mem_map_of_mem Prod.snd hp
        have hchain : (errorCategoryChain online e).map Prod.snd = fixedErrorMessages := rfl
        rwa [hchain] at hm
      show p.snd ≠ "" ∧
        (p.snd ∈ fixedErrorMessages ∨ ∃ rest, p.snd = "SYSTEM ERROR: " ++ rest)
      refine ⟨?_, Or.inl hmem⟩
      intro hc
      rw [hc] at hmem
      simp [fixedErrorMessages] at hmem

/-! ## `handleScroll` of `App` and the scroll-interval cleanup -/

/-- The scroll action union type `'up' | 'down' | 'auto' | 'stop'`. -/
inductive SAction
  | up
  | down
  | auto
  | stop
deriving DecidableEq, Repr

/-- Smooth `window.scrollBy` commands issued by `handleScroll`. -/
inductive ScrollCmd
  | smoothUp
  | smoothDown
deriving DecidableEq, Repr

/-- State of the scroll helper: the registered interval id (the ref
`scrollIntervalRef`), a counter producing fresh interval ids, and ghost
histories of cleared intervals and issued scroll commands. -/
structure ScrollState where
  interval : Option Nat
  nextId : Nat
  cleared : List Nat
  scrolls : List ScrollCmd
deriving DecidableEq, Repr

/-- The shared prologue of `handleScroll` and `stopJarvis`: if an
interval is registered, `clearInterval` it and null the ref. -/
def clearScrollInterval (s : ScrollState) : ScrollState :=
  match s.interval with
  | some i =>
      { s with interval := none
               cleared := s.cleared ++ [i] }
  | none => s

/-- `handleScroll` of `App` (first version): always clear any existing
interval first; `stop` returns; `down`/`up` issue one smooth scroll;
`auto` registers a fresh interval. -/
def handleScroll (a : SAction) (s : ScrollState) : ScrollState :=
  let s1 := clearScrollInterval s
  match a with
  | SAction.stop => s1
  | SAction.down => { s1 with scrolls := s1.scrolls ++ [ScrollCmd.smoothDown] }
  | SAction.up => { s1 with scrolls := s1.scrolls ++ [ScrollCmd.smoothUp] }
  | SAction.auto =>
      { s1 with interval := some s1.nextId
                nextId := s1.nextId + 1 }

/-- The interval cleanup performed by `stopJarvis`. -/
def stopJarvisScrollCleanup (s : ScrollState) : ScrollState := clearScrollInterval s

/-- Claim C9: at most one auto-scroll interval is ever active.  Every
`handleScroll` call first clears any existing interval (recording it in
`cleared`) and nulls the ref; after it returns an interval is registered
iff the action was `auto`; `handleScroll stop` and the `stopJarvis`
cleanup always leave the ref null. -/
theorem at_most_one_scroll_interval (a : SAction) (s : ScrollState) :
    ((handleScroll a s).interval.isSome = true ↔ a = SAction.auto) ∧
    (∀ i, s.interval = some i → i ∈ (handleScroll a s).cleared) ∧
    (handleScroll SAction.stop s).interval = none ∧
    (stopJarvisScrollCleanup s).interval = none := by
  refine ⟨?_, ?_, ?_, ?_⟩
  · cases a <;> cases hi : s.interval <;>
      simp [handleScroll, clearScrollInterval, hi]
  · intro i hi
    cases a <;> simp [handleScroll, clearScrollInterval, hi]
  · cases hi : s.interval <;> simp [handleScroll, clearScrollInterval, hi]
  · cases hi : s.interval <;> simp [stopJarvisScrollCleanup, clearScrollInterval, hi]

theorem at_most_one_scroll_interval_witness :
    ((handleScroll SAction.auto (ScrollState.mk (some 3) 4 [] [])).interval.isSome = true ↔
      SAction.auto = SAction.auto) ∧
    3 ∈ (handleScroll SAction.auto (ScrollState.mk (some 3) 4 [] [])).cleared ∧
    (handleScroll SAction.stop (ScrollState.mk (some 3) 4 [] [])).interval = none := by
  have h := at_most_one_scroll_interval SAction.auto (ScrollState.mk (some 3) 4 [] [])
  exact ⟨h.1, h.2.1 3 rfl, h.2.2.1⟩

/-! ## `JarvisService.sendMessage` -/

/-- A chat history entry as passed to `sendMessage`. -/
structure ChatMessage where
  role : String
  content : String
deriving DecidableEq, Repr

/-- Text returned when `process.env.API_KEY` is unset. -/
def apiKeyMissingText : String :=
  "API Key is missing. Please check your environment configuration."

/-- Text returned when the underlying request throws. -/
def neuralErrorText : String := "Error connecting to neural network."

/-- Fallback text substituted for an absent or empty response text. -/
def emptyTextFallback : String := "Sorry Sir, connection mein kuch issue hai."

/-- `JarvisService.sendMessage`: the remote call is abstracted as `svc`,
either a thrown error or a response whose `text` field may be absent
(`none`) or any string.  `history` and `newMessage` only flow into the
request and never influence the error handling. -/
def sendMessage (apiKeySet : Bool) (history : List ChatMessage)
    (newMessage : String) (svc : Except String (Option String)) : String :=
  if !apiKeySet then apiKeyMissingText
  else
    match svc with
    | Except.error _ => neuralErrorText
    | Except.ok none => emptyTextFallback
    | Except.ok (some t) => if t = "" then emptyTextFallback else t

/-- Claim C8: `JarvisService.sendMessage` never rejects.  For every
history and message: with the API key unset it returns the fixed
missing-key text; when the request throws it returns the fixed
neural-network error text; an absent or empty response text is replaced
by the fixed fallback; and the returned text is always non-empty. -/
theorem sendMessage_always_resolves_nonempty (apiKeySet : Bool)
    (history : List ChatMessage) (newMessage : String)
    (svc : Except String (Option String)) :
    sendMessage apiKeySet history newMessage svc ≠ "" ∧
    (apiKeySet = false → sendMessage apiKeySet history newMessage svc = apiKeyMissingText) ∧
    (∀ err, apiKeySet = true → svc = Except.error err →
      sendMessage apiKeySet history newMessage svc = neuralErrorText) ∧
    (apiKeySet = true → (svc = Except.ok none ∨ svc = Except.ok (some "")) →
      sendMessage apiKeySet history newMessage svc = emptyTextFallback) := by
  refine ⟨?_, ?_, ?_, ?_⟩
  · rcases apiKeySet with _ | _
    · simp [sendMessage, apiKeyMissingText]
    · rcases svc with e | t
      · simp [sendMessage, neuralErrorText]
      · rcases t with _ | t
        · simp [sendMessage, emptyTextFallback]
        · by_cases h : t = ""
          · subst h
            simp [sendMessage, emptyTextFallback]
          · simp [sendMessage, h]
  · intro h
    subst h
    simp [sendMessage]
  · intro err h hsvc
    subst h
    subst hsvc
    simp [sendMessage]
  · intro h hsvc
    subst h
    rcases hsvc with hsvc | hsvc <;> subst hsvc <;> simp [sendMessage]

theorem sendMessage_always_resolves_nonempty_witness :
    sendMessage false [] "hello" (Except.ok (some "hi")) = apiKeyMissingText ∧
    sendMessage true [] "hello" (Except.ok (some "")) = emptyTextFallback ∧
    sendMessage true [] "hello" (Except.error "boom") = neuralErrorText ∧
    sendMessage true [] "hello" (Except.ok (some "hi")) ≠ "" := by
  refine ⟨?_, ?_, ?_, ?_⟩
  · exact (sendMessage_always_resolves_nonempty false [] "hello" (Except.ok (some "hi"))).2.1 rfl
  · exact (sendMessage_always_resolves_nonempty true [] "hello" (Except.ok (some ""))).2.2.2 rfl
      (Or.inr rfl)
  · exact (sendMessage_always_resolves_nonempty true [] "hello"
      (Except.error "boom")).2.2.1 "boom" rfl rfl
  · exact (sendMessage_always_resolves_nonempty true [] "hello" (Except.ok (some "hi"))).1

/-! ## Tool arguments, results and the first `App` version's callback -/

/-- The `args` object of a function call.  A field is `some s` when the
property is present with string value `s`, and `none` when absent or of
a non-string type (so `safeArg` yields the empty string either way,
matching `(val && typeof val === 'string') ? val : ''` up to the
JS-falsy empty string, which `safeArg` also maps to itself). -/
structure ToolArgs where
  prompt : Option String
  action : Option String
  query : Option String
  type : Option String
  url : Option String
deriving DecidableEq, Repr

/-- A `ToolArgs` with every property absent. -/
def ToolArgs.empty : ToolArgs := ⟨none, none, none, none, none⟩

/-- `safeArg` of the first `App` version. -/
def safeArg (v : Option String) : String := v.getD ""

/-- The value returned by a tool handler: a `{ status: ... }` success
object or an `{ error: ... }` object. -/
inductive ToolResult
  | ok (status : String)
  | err (msg : String)
deriving DecidableEq, Repr

/-- Environment of a tool-callback run: whether `window.open` returns a
window (popups unblocked). -/
structure ToolEnv where
  openSucceeds : Bool
deriving DecidableEq, Repr

/-- Browser effects performed by one tool-callback run: the lock flag,
the ordered `setLastAction` writes, the blocked URL (if recorded), the
URLs passed to `window.open`, the scroll action forwarded to
`handleScroll`, the simulated key events, and the prompt forwarded to
`JarvisService.generateImage`. -/
structure ToolEffects where
  lockedSet : Bool
  lastActions : List String
  blockedUrl : Option String
  openAttempts : List String
  scrollCmd : Option String
  keysSimulated : List (String × String)
  imageRequested : Option String
deriving DecidableEq, Repr

/-- A run with no effects. -/
def ToolEffects.noEffects : ToolEffects := ⟨false, [], none, [], none, [], none⟩

/-- The `onToolCallback` handler the first `App` version passes to
`JarvisService.connectLive` (the `async (name, args) => ...` argument of
`startJarvis`), returning the handler's result together with the
browser effects it performs. -/
def onToolCallback (env : ToolEnv) (name : String) (args : ToolArgs) :
    ToolResult × ToolEffects :=
  if name = "generateImage" then
    if safeArg args.prompt = "" then
      (ToolResult.err "Missing prompt", ToolEffects.noEffects)
    else
      (ToolResult.ok "Generating image displayed to user",
       { ToolEffects.noEffects with lastActions := ["GENERATING IMAGE..."]
                                    imageRequested := some (safeArg args.prompt) })
  else if name = "lockSystem" then
    (ToolResult.ok "System locked",
     { ToolEffects.noEffects with lockedSet := true })
  else if name = "scrollPage" then
    if safeArg args.action ∈ (["up", "down", "auto", "stop"] : List String) then
      (ToolResult.ok "Scrolled",
       { ToolEffects.noEffects with scrollCmd := some (safeArg args.action)
                                    lastActions :=
                                      ["SCROLL: " ++ jsToUpper (safeArg args.action)] })
    else (ToolResult.err "Invalid action", ToolEffects.noEffects)
  else if name = "controlMedia" then
    (ToolResult.ok "Media toggle executed",
     { ToolEffects.noEffects with keysSimulated := [("k", "KeyK")]
                                  lastActions :=
                                    ["MEDIA: " ++
                                      (if safeArg args.action = "" then "TOGGLE"
                                       else jsToUpper (safeArg args.action))] })
  else
    let query := safeArg args.query
    let url :=
      if name = "performGoogleSearch" then
        "https://www.google.com/search?q=" ++ encodeURIComponent query
      else if name = "playMedia" then
        let ty := if safeArg args.type = "" then "video" else safeArg args.type
        let sq := if ty = "short" then query ++ " shorts" else query
        "https://www.youtube.com/results?search_query=" ++ encodeURIComponent sq
      else if name = "openWebsite" then safeArg args.url
      else ""
    let actionLabel :=
      if name = "performGoogleSearch" then "SEARCHING"
      else if name = "playMedia" then "PLAYING"
      else if name = "openWebsite" then "OPENING"
      else ""
    if url ≠ "" then
      let openLabel := actionLabel ++ ": " ++ (if query = "" then "URL" else query)
      if env.openSucceeds then
        (ToolResult.ok "Opened successfully",
         { ToolEffects.noEffects with lastActions := [openLabel]
                                      openAttempts := [url] })
      else
        (ToolResult.err "Browser blocked the popup window. User has been alerted manually.",
         { ToolEffects.noEffects with lastActions := [openLabel, "POPUP BLOCKED"]
                                      blockedUrl := some url
                                      openAttempts := [url] })
    else if name ∈ (["performGoogleSearch", "playMedia", "openWebsite"] : List String) then
      (ToolResult.err "Missing required parameters (url or query)",
       { ToolEffects.noEffects with lastActions := ["CMD ERR: MISSING PARAMS"] })
    else (ToolResult.err "Unknown tool", ToolEffects.noEffects)

/-- The `lastAction` auto-clear effect of the first `App` version:
a 3-second timer clearing `lastAction` is scheduled iff `lastAction` is
a JS-truthy string different from `POPUP BLOCKED`. -/
def lastActionClearScheduled (lastAction : Option String) : Bool :=
  match lastAction with
  | some a => a ≠ "" && a ≠ "POPUP BLOCKED"
  | none => false

/-! ## Tool-call dispatch in `connectLive`'s `onmessage` handler -/

/-- One function call of a received `toolCall` message. -/
structure FunctionCall where
  id : String
  name : String
  args : ToolArgs
deriving DecidableEq, Repr

/-- Environment read by the service-side tool handlers: the rendered
local time, `navigator.platform`, `navigator.onLine` and `Date.now()`. -/
structure DispatchEnv where
  timeStr : String
  platform : String
  online : Bool
  timestamp : Nat
deriving DecidableEq, Repr

/-- The `result` object placed into a tool response: the initial empty
object, a result from the App callback, the inline `getCurrentTime` or
`getSystemStatus` answers, or the catch-block error object
`{ error: 'Execution failed', details: ... }`. -/
inductive ExecResult
  | emptyObj
  | fromTool (r : ToolResult)
  | timeResult (t : String)
  | sysStatus (platform : String) (online : Bool) (timestamp : Nat)
  | execFailed (details : String)
deriving DecidableEq, Repr

/-- A response pushed for one function call. -/
structure ToolResponse where
  id : String
  name : String
  result : ExecResult
deriving DecidableEq, Repr

/-- The names `connectLive` delegates to the App callback. -/
def dispatchAllowlist : List String :=
  ["openWebsite", "googleSearch", "playMedia", "controlMedia", "scrollPage",
   "generateImage", "lockSystem"]

/-- Handling of a single function call inside the `msg.toolCall` loop of
`connectLive`'s `onmessage`: allowlisted names are delegated to the App
callback (whose execution may throw, modelled by `Except.error`);
`getCurrentTime` and `getSystemStatus` are answered inline; any other
name leaves `result` as the initial empty object.  A thrown error is
caught and becomes an `execFailed` result instead of failing the
handler.  Exactly one response carrying the call's id and name is
built. -/
def dispatchOne (env : DispatchEnv)
    (cb : String → ToolArgs → Except String ToolResult)
    (fc : FunctionCall) : ToolResponse :=
  let result :=
    if fc.name ∈ dispatchAllowlist then
      match cb fc.name fc.args with
      | Except.ok r => ExecResult.fromTool r
      | Except.error details => ExecResult.execFailed details
    else if fc.name = "getCurrentTime" then ExecResult.timeResult env.timeStr
    else if fc.name = "getSystemStatus" then
      ExecResult.sysStatus env.platform env.online env.timestamp
    else ExecResult.emptyObj
  ⟨fc.id, fc.name, result⟩

/-- The full `msg.toolCall` loop: one response per function call, sent
back together via `sendToolResponse`. -/
def handleToolCallMsg (env : DispatchEnv)
    (cb : String → ToolArgs → Except String ToolResult)
    (calls : List FunctionCall) : List ToolResponse :=
  calls.map (dispatchOne env cb)

/-- Claim C4: every tool call returns a result to the model.  For every
received list of function calls, exactly one response per call is
pushed, the i-th response carries the i-th call's id and name, and when
the delegated execution throws, the pushed response's result is the
caught error object rather than the handler failing. -/
theorem every_tool_call_gets_response (env : DispatchEnv)
    (cb : String → ToolArgs → Except String ToolResult)
    (calls : List FunctionCall) :
    (handleToolCallMsg env cb calls).length = calls.length ∧
    (∀ i : Nat,
      ((handleToolCallMsg env cb calls)[i]?).map ToolResponse.id =
        (calls[i]?).map FunctionCall.id ∧
      ((handleToolCallMsg env cb calls)[i]?).map ToolResponse.name =
        (calls[i]?).map FunctionCall.name) ∧
    (∀ fc details, fc.name ∈ dispatchAllowlist →
      cb fc.name fc.args = Except.error details →
      (dispatchOne env cb fc).result = ExecResult.execFailed details) := by
  refine ⟨by simp [handleToolCallMsg], ?_, ?_⟩
  · intro i
    cases h : calls[i]? with
    | none => constructor <;> simp [handleToolCallMsg, List.getElem?_map, h]
    | some fc => constructor <;> simp [handleToolCallMsg, List.getElem?_map, h, dispatchOne]
  · intro fc details hmem hcb
    simp [dispatchOne, hmem, hcb]

/-- Concrete dispatch environment used by the closed evaluations. -/
def envW : DispatchEnv := ⟨"12:00:00", "TestPlatform", true, 0⟩

/-- A callback whose execution always throws. -/
def cbThrowW : String → ToolArgs → Except String ToolResult :=
  fun _ _ => Except.error "boom"

/-- A concrete allowlisted function call. -/
def fcW : FunctionCall := ⟨"call-1", "openWebsite", ToolArgs.empty⟩

theorem every_tool_call_gets_response_witness :
    (handleToolCallMsg envW cbThrowW [fcW]).length = 1 ∧
    (dispatchOne envW cbThrowW fcW).result = ExecResult.execFailed "boom" := by
  have h := every_tool_call_gets_response envW cbThrowW [fcW]
  exact ⟨h.1, h.2.2 fcW "boom" (by simp [fcW, dispatchAllowlist]) rfl⟩

/-! ## Claims about the tool action set (C5) and popup blocking (C10) -/

/-- Environment where `window.open` succeeds. -/
def openEnv : ToolEnv := ⟨true⟩

/-- Environment where `window.open` returns null (popup blocked). -/
def blockedEnv : ToolEnv := ⟨false⟩

/-- Concrete arguments used by the closed evaluations. -/
def argsW : ToolArgs :=
  ⟨some "cat", some "auto", some "news", some "video", some "https://x.co"⟩

/-- The Google-search URL built for a query is never the empty string. -/
lemma googleUrl_ne_empty (q : String) :
    ("https://www.google.com/search?q=" ++ encodeURIComponent q) ≠ "" :=
  append_ne_empty_of_left _ _ (by simp)

/-- The YouTube-search URL built for a query is never the empty string. -/
lemma youtubeUrl_ne_empty (q : String) :
    ("https://www.youtube.com/results?search_query=" ++ encodeURIComponent q) ≠ "" :=
  append_ne_empty_of_left _ _ (by simp)

/-- Counterexample to claim C5 as stated: `googleSearch` is one of the
declared tools (the service allowlist delegates it to the App
callback), yet the first `App` version's callback — which renamed its
search handler to `performGoogleSearch` — answers `googleSearch` with
the error result `Unknown tool` and performs no browser action, rather
than performing a search and returning a success status.  Moreover, a
name outside the declared set never reaches the callback: the service
dispatcher leaves its response's result as the initial empty object
rather than an `Unknown tool` error. -/
theorem tool_set_claim_counterexample :
    "googleSearch" ∈ dispatchAllowlist ∧
    onToolCallback openEnv "googleSearch"
        { ToolArgs.empty with query := some "iron man" } =
      (ToolResult.err "Unknown tool", ToolEffects.noEffects) ∧
    (dispatchOne envW (fun n a => Except.ok (onToolCallback openEnv n a).1)
        ⟨"id-9", "someUnknownTool", ToolArgs.empty⟩).result = ExecResult.emptyObj := by
  refine ⟨by simp [dispatchAllowlist], by decide, by decide⟩

/-- Claim C5 (amended): the model can invoke a small fixed set of
browser-side actions.  In the first `App` version the callback handles
`generateImage`, `lockSystem`, `scrollPage`, `controlMedia`,
`performGoogleSearch`, `playMedia` and `openWebsite`; with valid
arguments (and, for URL-opening tools, an unblocked popup) it performs
the corresponding browser action and returns a success-status result;
`getCurrentTime` is answered directly by the service dispatcher without
consulting the callback; and every name outside the handled set —
including the declared `googleSearch` — receives the error result
`Unknown tool` from the callback and performs no action. -/
theorem tool_dispatch_amended (env : ToolEnv) (args : ToolArgs) :
    (∀ name, name ∉ (["generateImage", "lockSystem", "scrollPage", "controlMedia",
        "performGoogleSearch", "playMedia", "openWebsite"] : List String) →
      onToolCallback env name args =
        (ToolResult.err "Unknown tool", ToolEffects.noEffects)) ∧
    (onToolCallback env "lockSystem" args =
      (ToolResult.ok "System locked",
       { ToolEffects.noEffects with lockedSet := true })) ∧
    (∀ p, args.prompt = some p → p ≠ "" →
      (onToolCallback env "generateImage" args).1 =
        ToolResult.ok "Generating image displayed to user" ∧
      (onToolCallback env "generateImage" args).2.imageRequested = some p) ∧
    (∀ a, args.action = some a → a ∈ (["up", "down", "auto", "stop"] : List String) →
      (onToolCallback env "scrollPage" args).1 = ToolResult.ok "Scrolled" ∧
      (onToolCallback env "scrollPage" args).2.scrollCmd = some a) ∧
    ((onToolCallback env "controlMedia" args).1 = ToolResult.ok "Media toggle executed" ∧
      (onToolCallback env "controlMedia" args).2.keysSimulated = [("k", "KeyK")]) ∧
    (env.openSucceeds = true →
      (onToolCallback env "performGoogleSearch" args).1 = ToolResult.ok "Opened successfully" ∧
      (onToolCallback env "performGoogleSearch" args).2.openAttempts =
        ["https://www.google.com/search?q=" ++ encodeURIComponent (safeArg args.query)]) ∧
    (env.openSucceeds = true →
      (onToolCallback env "playMedia" args).1 = ToolResult.ok "Opened successfully") ∧
    (∀ u, env.openSucceeds = true → args.url = some u → u ≠ "" →
      (onToolCallback env "openWebsite" args).1 = ToolResult.ok "Opened successfully" ∧
      (onToolCallback env "openWebsite" args).2.openAttempts = [u]) ∧
    (∀ denv cb fc, fc.name = "getCurrentTime" →
      dispatchOne denv cb fc = ⟨fc.id, fc.name, ExecResult.timeResult denv.timeStr⟩) := by
  refine ⟨?_, ?_, ?_, ?_, ?_, ?_, ?_, ?_, ?_⟩
  · intro name hname
    simp only [List.mem_cons, List.not_mem_nil, or_false, not_or] at hname
    obtain ⟨h1, h2, h3, h4, h5, h6, h7⟩ := hname
    simp [onToolCallback, h1, h2, h3, h4, h5, h6, h7]
  · simp [onToolCallback]
  · intro p hp hne
    constructor <;> simp [onToolCallback, safeArg, hp, hne]
  · intro a ha hmem
    constructor <;> simp [onToolCallback, safeArg, ha, hmem]
  · constructor <;> simp [onToolCallback]
  · intro hopen
    constructor <;> simp [onToolCallback, hopen, googleUrl_ne_empty]
  · intro hopen
    simp [onToolCallback, hopen, youtubeUrl_ne_empty]
  · intro u hopen hu hne
    constructor <;> simp [onToolCallback, safeArg, hopen, hu, hne]
  · intro denv cb fc hname
    simp [dispatchOne, hname, dispatchAllowlist]

theorem tool_dispatch_amended_witness :
    onToolCallback openEnv "someUnknownTool" argsW =
      (ToolResult.err "Unknown tool", ToolEffects.noEffects) ∧
    (onToolCallback openEnv "performGoogleSearch" argsW).1 =
      ToolResult.ok "Opened successfully" ∧
    (onToolCallback openEnv "scrollPage" argsW).1 = ToolResult.ok "Scrolled" ∧
    (onToolCallback openEnv "openWebsite" argsW).1 = ToolResult.ok "Opened successfully" ∧
    (dispatchOne envW cbThrowW ⟨"id-1", "getCurrentTime", ToolArgs.empty⟩).result =
      ExecResult.timeResult "12:00:00" := by
  obtain ⟨hunk, -, -, hscroll, -, hgoogle, -, hopen, htime⟩ :=
    tool_dispatch_amended openEnv argsW
  refine ⟨hunk "someUnknownTool" (by simp), (hgoogle rfl).1, ?_, ?_, ?_⟩
  · exact (hscroll "auto" rfl (by simp)).1
  · exact (hopen "https://x.co" rfl rfl (by simp)).1
  · have h := htime envW cbThrowW ⟨"id-1", "getCurrentTime", ToolArgs.empty⟩ rfl
    rw [h]
    rfl

/-- Claim C10: popup blocking is surfaced to both the model and the
user.  In the first `App` version, for every URL-opening tool call
(`performGoogleSearch`, `playMedia`, `openWebsite`) where `window.open`
returns null, the callback records the blocked URL in `blockedUrl`,
leaves `lastAction` at `POPUP BLOCKED`, and returns an error result to
the model instead of a success status; and `POPUP BLOCKED` is the one
`lastAction` value exempt from the 3-second auto-clear. -/
theorem popup_block_surfaced (env : ToolEnv) (args : ToolArgs)
    (hblocked : env.openSucceeds = false) :
    ((onToolCallback env "performGoogleSearch" args).1 =
        ToolResult.err "Browser blocked the popup window. User has been alerted manually." ∧
      (onToolCallback env "performGoogleSearch" args).2.blockedUrl =
        some ("https://www.google.com/search?q=" ++ encodeURIComponent (safeArg args.query)) ∧
      (onToolCallback env "performGoogleSearch" args).2.lastActions.getLast? =
        some "POPUP BLOCKED") ∧
    ((onToolCallback env "playMedia" args).1 =
        ToolResult.err "Browser blocked the popup window. User has been alerted manually." ∧
      (onToolCallback env "playMedia" args).2.blockedUrl.isSome = true ∧
      (onToolCallback env "playMedia" args).2.lastActions.getLast? =
        some "POPUP BLOCKED") ∧
    (∀ u, args.url = some u → u ≠ "" →
      (onToolCallback env "openWebsite" args).1 =
        ToolResult.err "Browser blocked the popup window. User has been alerted manually." ∧
      (onToolCallback env "openWebsite" args).2.blockedUrl = some u ∧
      (onToolCallback env "openWebsite" args).2.lastActions.getLast? =
        some "POPUP BLOCKED") ∧
    lastActionClearScheduled (some "POPUP BLOCKED") = false ∧
    (∀ a, a ≠ "" → a ≠ "POPUP BLOCKED" → lastActionClearScheduled (some a) = true) := by
  refine ⟨?_, ?_, ?_, by decide, ?_⟩
  · refine ⟨?_, ?_, ?_⟩ <;> simp [onToolCallback, hblocked, googleUrl_ne_empty]
  · refine ⟨?_, ?_, ?_⟩ <;> simp [onToolCallback, hblocked, youtubeUrl_ne_empty]
  · intro u hu hne
    refine ⟨?_, ?_, ?_⟩ <;> simp [onToolCallback, safeArg, hblocked, hu, hne]
  · intro a hne hnp
    simp [lastActionClearScheduled, hne, hnp]

theorem popup_block_surfaced_witness :
    (onToolCallback blockedEnv "performGoogleSearch" argsW).2.lastActions.getLast? =
      some "POPUP BLOCKED" ∧
    (onToolCallback blockedEnv "openWebsite" argsW).2.blockedUrl = some "https://x.co" ∧
    lastActionClearScheduled (some "POPUP BLOCKED") = false ∧
    lastActionClearScheduled (some "SEARCHING: news") = true := by
  obtain ⟨hg, -, hw, hclear, hsched⟩ :=
    popup_block_surfaced blockedEnv argsW rfl
  refine ⟨hg.2.2, ?_, hclear, ?_⟩
  · exact (hw "https://x.co" rfl (by simp)).2.1
  · exact hsched "SEARCHING: news" (by simp) (by simp)

/-! ## The `onmessage` handler of `connectLive` -/

/-- Transcript roles. -/
inductive TRole
  | user
  | model
deriving DecidableEq, Repr

/-- Mutable state captured by the `onmessage` closure: the input and
output transcription accumulators, whether a silence timer is pending,
and the `isModelSpeaking` flag. -/
structure LiveState where
  currentInput : String
  currentOutput : String
  timerActive : Bool
  isModelSpeaking : Bool
deriving DecidableEq, Repr

/-- A `LiveServerMessage` as read by the handler: optional tool calls,
optional input transcription text, optional base64 audio payload of the
first model-turn part, optional output transcription text, and the
`turnComplete` flag. -/
structure ServerMsg where
  toolCall : Option (List FunctionCall)
  inputTranscription : Option String
  modelAudioData : Option String
  outputTranscription : Option String
  turnComplete : Bool
deriving DecidableEq, Repr

/-- Observable outputs of one `onmessage` run: `onStatusChange` calls in
order, `onTranscript` deliveries, `onAudioData` payloads, and tool
responses sent back. -/
structure HandlerOut where
  statuses : List VoiceStatus
  transcripts : List (TRole × String)
  audioOut : List String
  responses : List ToolResponse
deriving DecidableEq, Repr

/-- No outputs. -/
def HandlerOut.empty : HandlerOut := ⟨[], [], [], []⟩

/-- Concatenation of outputs of successive handler sections. -/
def HandlerOut.append (a b : HandlerOut) : HandlerOut :=
  ⟨a.statuses ++ b.statuses, a.transcripts ++ b.transcripts,
   a.audioOut ++ b.audioOut, a.responses ++ b.responses⟩

/-- Section 1 of `onmessage`: on `msg.toolCall`, set status to
`processing` and answer every function call. -/
def handleToolSection (env : DispatchEnv)
    (cb : String → ToolArgs → Except String ToolResult)
    (st : LiveState) (msg : ServerMsg) : LiveState × HandlerOut :=
  match msg.toolCall with
  | some calls =>
      (st, ⟨[VoiceStatus.processing], [], [], handleToolCallMsg env cb calls⟩)
  | none => (st, HandlerOut.empty)

/-- Section 2 of `onmessage`: accumulate the user input transcription,
report `listening` unless the model is speaking, and (re)arm the
silence timer. -/
def handleInputSection (st : LiveState) (msg : ServerMsg) : LiveState × HandlerOut :=
  match msg.inputTranscription with
  | some t =>
      ({ st with currentInput := st.currentInput ++ t
                 timerActive := true },
       ⟨if st.isModelSpeaking then [] else [VoiceStatus.listening], [], [], []⟩)
  | none => (st, HandlerOut.empty)

/-- Section 3 of `onmessage`: on inline audio data, cancel the silence
timer, mark the model as speaking, report `speaking`, accumulate the
output transcription carried by the same message, and deliver the
decoded buffer. -/
def handleAudioSection (st : LiveState) (msg : ServerMsg) : LiveState × HandlerOut :=
  match msg.modelAudioData with
  | some b64 =>
      ({ st with timerActive := false
                 isModelSpeaking := true
                 currentOutput := st.currentOutput ++ msg.outputTranscription.getD "" },
       ⟨[VoiceStatus.speaking], [], [b64], []⟩)
  | none => (st, HandlerOut.empty)

/-- Section 4 of `onmessage`: on `turnComplete`, clear the speaking
flag and the silence timer, deliver the accumulated output
transcription as a model transcript when its trimmed form is non-empty,
reset both accumulators, and report `idle`. -/
def handleTurnCompleteSection (st : LiveState) (msg : ServerMsg) :
    LiveState × HandlerOut :=
  if msg.turnComplete then
    (⟨"", "", false, false⟩,
     ⟨[VoiceStatus.idle],
      if jsTrim st.currentOutput ≠ "" then [(TRole.model, st.currentOutput)] else [],
      [], []⟩)
  else (st, HandlerOut.empty)

/-- The whole `onmessage` handler: the four sections run in order on
one message. -/
def onmessage (env : DispatchEnv)
    (cb : String → ToolArgs → Except String ToolResult)
    (st : LiveState) (msg : ServerMsg) : LiveState × HandlerOut :=
  let r1 := handleToolSection env cb st msg
  let r2 := handleInputSection r1.1 msg
  let r3 := handleAudioSection r2.1 msg
  let r4 := handleTurnCompleteSection r3.1 msg
  (r4.1, ((r1.2.append r2.2).append r3.2).append r4.2)

/-- The output transcription accumulated by the time section 4 runs:
the stored accumulator, extended by the output transcription carried by
this very message when it also carries audio. -/
def accumulatedOutput (env : DispatchEnv)
    (cb : String → ToolArgs → Except String ToolResult)
    (st : LiveState) (msg : ServerMsg) : String :=
  (handleAudioSection (handleInputSection (handleToolSection env cb st msg).1 msg).1
    msg).1.currentOutput

lemma mem_ite_singleton {α : Type} (a : α) (c : Prop) [Decidable c] :
    a ∈ (if c then [a] else []) ↔ c := by
  split_ifs with h <;> simp [h]

/-- Claim C7: transcripts are rendered at turn completion.  Whenever a
message carrying `turnComplete` arrives, the accumulated output
transcription is delivered as a `model` transcript iff it is non-empty
after trimming, both accumulators are reset to the empty string, the
speaking flag is cleared, and the last status reported is `idle`. -/
theorem turn_complete_transcript_delivery (env : DispatchEnv)
    (cb : String → ToolArgs → Except String ToolResult)
    (st : LiveState) (msg : ServerMsg) (hturn : msg.turnComplete = true) :
    (onmessage env cb st msg).1.currentInput = "" ∧
    (onmessage env cb st msg).1.currentOutput = "" ∧
    (onmessage env cb st msg).1.isModelSpeaking = false ∧
    (onmessage env cb st msg).2.statuses.getLast? = some VoiceStatus.idle ∧
    ((TRole.model, accumulatedOutput env cb st msg) ∈ (onmessage env cb st msg).2.transcripts ↔
      jsTrim (accumulatedOutput env cb st msg) ≠ "") := by
  obtain ⟨tc, it, ad, ot, turn⟩ := msg
  simp only at hturn
  subst hturn
  cases tc <;> cases it <;> cases ad <;> cases hms : st.isModelSpeaking <;>
    simp [onmessage, handleToolSection, handleInputSection, handleAudioSection,
      handleTurnCompleteSection, accumulatedOutput, HandlerOut.append, HandlerOut.empty,
      mem_ite_singleton, hms]

theorem turn_complete_transcript_delivery_witness :
    (onmessage envW cbThrowW (LiveState.mk "query" "hello boss" true true)
      (ServerMsg.mk none none none none true)).1.currentOutput = "" ∧
    ((TRole.model,
        accumulatedOutput envW cbThrowW (LiveState.mk "query" "hello boss" true true)
          (ServerMsg.mk none none none none true)) ∈
      (onmessage envW cbThrowW (LiveState.mk "query" "hello boss" true true)
        (ServerMsg.mk none none none none true)).2.transcripts ↔
      jsTrim (accumulatedOutput envW cbThrowW (LiveState.mk "query" "hello boss" true true)
        (ServerMsg.mk none none none none true)) ≠ "") := by
  have h := turn_complete_transcript_delivery envW cbThrowW
    (LiveState.mk "query" "hello boss" true true) (ServerMsg.mk none none none none true) rfl
  exact ⟨h.2.1, h.2.2.2.2⟩
